import Mathlib

/-!
Shallow embedding of `glidertools/utils.py` (GliderTools).

Timestamps (`datetime64[ns]` turned into floats by the code) and depths are
modelled by exact rationals; the float64 values flowing through numpy/pandas
are modelled by `FP`, rationals extended with NaN and the two infinities,
with IEEE comparison semantics (every comparison involving NaN is false).
-/

namespace GliderTools

/-- A numpy/pandas float64 scalar: finite values modelled exactly by `ℚ`,
plus NaN and the two infinities. -/
inductive FP where
  | nan : FP
  | pinf : FP
  | ninf : FP
  | fin : ℚ → FP
  deriving DecidableEq

/-- IEEE `<` on float64: any comparison with NaN is false. -/
def fpLt : FP → FP → Bool
  | .nan, _ => false
  | _, .nan => false
  | .pinf, _ => false
  | .ninf, .ninf => false
  | .ninf, _ => true
  | .fin _, .pinf => true
  | .fin _, .ninf => false
  | .fin a, .fin b => decide (a < b)

/-- IEEE `≤` on float64: any comparison with NaN is false. -/
def fpLe : FP → FP → Bool
  | .nan, _ => false
  | _, .nan => false
  | .ninf, _ => true
  | _, .pinf => true
  | .pinf, _ => false
  | .fin _, .ninf => false
  | .fin a, .fin b => decide (a ≤ b)

/-- IEEE subtraction (exact on finite values). -/
def fpSub : FP → FP → FP
  | .nan, _ => .nan
  | _, .nan => .nan
  | .pinf, .pinf => .nan
  | .pinf, _ => .pinf
  | .ninf, .ninf => .nan
  | .ninf, _ => .ninf
  | .fin _, .pinf => .ninf
  | .fin _, .ninf => .pinf
  | .fin a, .fin b => .fin (a - b)

/-- IEEE addition (exact on finite values). -/
def fpAdd : FP → FP → FP
  | .nan, _ => .nan
  | _, .nan => .nan
  | .pinf, .ninf => .nan
  | .ninf, .pinf => .nan
  | .pinf, _ => .pinf
  | _, .pinf => .pinf
  | .ninf, _ => .ninf
  | _, .ninf => .ninf
  | .fin a, .fin b => .fin (a + b)

/-- IEEE multiplication (exact on finite values). -/
def fpMul : FP → FP → FP
  | .nan, _ => .nan
  | _, .nan => .nan
  | .pinf, .pinf => .pinf
  | .pinf, .ninf => .ninf
  | .ninf, .pinf => .ninf
  | .ninf, .ninf => .pinf
  | .pinf, .fin b => if b = 0 then .nan else if 0 < b then .pinf else .ninf
  | .fin a, .pinf => if a = 0 then .nan else if 0 < a then .pinf else .ninf
  | .ninf, .fin b => if b = 0 then .nan else if 0 < b then .ninf else .pinf
  | .fin a, .ninf => if a = 0 then .nan else if 0 < a then .ninf else .pinf
  | .fin a, .fin b => .fin (a * b)

/-- IEEE division: `x/0` is `±inf` for nonzero finite `x` and `0/0` is NaN,
exactly the values numpy produces (it warns but still returns them). -/
def fpDiv : FP → FP → FP
  | .nan, _ => .nan
  | _, .nan => .nan
  | .pinf, .pinf => .nan
  | .pinf, .ninf => .nan
  | .ninf, .pinf => .nan
  | .ninf, .ninf => .nan
  | .pinf, .fin b => if 0 ≤ b then .pinf else .ninf
  | .ninf, .fin b => if 0 ≤ b then .ninf else .pinf
  | .fin _, .pinf => .fin 0
  | .fin _, .ninf => .fin 0
  | .fin a, .fin b =>
      if b = 0 then (if a = 0 then .nan else if 0 < a then .pinf else .ninf)
      else .fin (a / b)

/-- Truncation toward zero of an exact rational, as `int(q)` / numpy
`astype(int)` do for finite floats. -/
def truncRat (q : ℚ) : ℤ :=
  if 0 ≤ q then q.num / (q.den : ℤ) else -((-q.num) / (q.den : ℤ))

/-- Model of `astype(int)` on a float64 value. Non-finite values cast to the
platform value `INT64_MIN` (x86-64 `cvttsd2si` behaviour). -/
def fpToInt : FP → ℤ
  | .fin q => truncRat q
  | _ => -(2 ^ 63)

/-! ## calc_glider_vert_velocity (utils.py lines 202-232) -/

/-- Model of `ndarray.min()`: the least element of a nonempty array (the code never
takes the min of an empty array; numpy would raise there, we return 0). -/
def npMin : List ℚ → ℚ
  | [] => 0
  | x :: xs => xs.foldl min x

/-- Model of `(t_ns - t_ns.min()) / 1e9`: elapsed seconds since the earliest
timestamp, at positional index `i`. -/
def t_s (time : List ℚ) (i : ℕ) : ℚ :=
  (time.getD i 0 - npMin time) / (10 ^ 9 : ℚ)

/-- Model of `p_m * 100`: depth converted from metres to centimetres, at index `i`. -/
def p_cm (depth : List ℚ) (i : ℕ) : ℚ := 100 * depth.getD i 0

/-- One element of `p_cm.diff() / t_s.diff()`.  `Series.diff` puts NaN at
index 0 and at indices beyond a series' own length (positional alignment of
the two pandas Series). -/
def velAt (time depth : List ℚ) (i : ℕ) : FP :=
  let dp : FP := if i = 0 ∨ depth.length ≤ i then .nan
    else .fin (p_cm depth i - p_cm depth (i - 1))
  let dt : FP := if i = 0 ∨ time.length ≤ i then .nan
    else .fin (t_s time i - t_s time (i - 1))
  fpDiv dp dt

/-- Model of `calc_glider_vert_velocity(time, depth)`: vertical velocity in cm/s. -/
def calc_glider_vert_velocity (time depth : List ℚ) : List FP :=
  (List.range (max time.length depth.length)).map (velAt time depth)

/-! ## calc_dive_phase (utils.py lines 235-271)

The source allocates `phase = ndarray(time.size)` — an *uninitialised*
buffer — and then overwrites entries by the four boolean-mask assignments,
finally replacing entries that are (still) NaN by 6.  The buffer's initial
contents are whatever bytes the allocator returned, so the embedding takes
them as an explicit parameter `buf`. -/

/-- The float value left in `phase[i]` after the four mask assignments and
the final `phase[isnan(phase)] = 6` replacement, starting from the
uninitialised buffer value `buf i`. -/
def phaseValAt (time depth : List ℚ) (thr : ℚ) (buf : ℕ → FP) (i : ℕ) : FP :=
  let v := velAt time depth i
  let d := depth.getD i 0
  let b0 := buf i
  let b1 := if fpLt (.fin (1/2)) v = true then .fin 1 else b0
  let b2 := if fpLt v (.fin (-(1/2))) = true then .fin 4 else b1
  let b3 := if thr < d ∧ fpLe (.fin (-(1/2))) v = true ∧ fpLe v (.fin (1/2)) = true
    then .fin 3 else b2
  let b4 := if d ≤ thr then .fin 0 else b3
  if b4 = .nan then .fin 6 else b4

/-- Model of `calc_dive_phase(time, depth, dive_depth_threshold)` with the
uninitialised buffer contents `buf` made explicit. -/
def calc_dive_phase (time depth : List ℚ) (thr : ℚ) (buf : ℕ → FP) : List ℤ :=
  (List.range time.length).map (fun i => fpToInt (phaseValAt time depth thr buf i))

/-! ## dive_phase_to_number (utils.py lines 300-310) -/

/-- Model of `(phase == t).astype(int)`. -/
def indEq (t : ℤ) (phase : List ℤ) : List ℤ :=
  phase.map (fun p => if p = t then 1 else 0)

/-- Model of `(xs.diff() == 1).astype(int)`: 1 exactly where a run of the target
label starts.  `diff` yields NaN at index 0 and `NaN == 1` is false. -/
def runStart (xs : List ℤ) : List ℤ :=
  match xs with
  | [] => []
  | x :: rest =>
      0 :: List.zipWith (fun prev cur => if cur - prev = 1 then 1 else 0) (x :: rest) rest

/-- Running-sum worker for `cumsum`. -/
def cumsumGo (acc : ℤ) : List ℤ → List ℤ
  | [] => []
  | x :: xs => (acc + x) :: cumsumGo (acc + x) xs

/-- Model of `Series.cumsum()`. -/
def cumsum (xs : List ℤ) : List ℤ := cumsumGo 0 xs

/-- Model of `dive_phase_to_number(phase)`: `(u_dive + d_dive) / 2` where each
counter cumulatively counts run starts of labels 4 and 1 respectively. -/
def dive_phase_to_number (phase : List ℤ) : List ℚ :=
  List.zipWith (fun u d => ((u + d : ℤ) : ℚ) / 2)
    (cumsum (runStart (indEq 4 phase))) (cumsum (runStart (indEq 1 phase)))

/-- Model of `calc_dive_number(time, depth, dive_depth_threshold)`. -/
def calc_dive_number (time depth : List ℚ) (thr : ℚ) (buf : ℕ → FP) : List ℚ :=
  dive_phase_to_number (calc_dive_phase time depth thr buf)

/-! ## Evaluation helpers -/

lemma fin_ne_nan (q : ℚ) : (FP.fin q = FP.nan) = False := by simp

lemma truncRat_intCast (n : ℤ) : truncRat (n : ℚ) = n := by
  rcases le_or_lt 0 n with h | h
  · simp [truncRat, Int.cast_nonneg.mpr h]
  · have : ¬ (0 : ℚ) ≤ (n : ℚ) := by exact_mod_cast not_le.mpr h
    simp [truncRat, this]

/-- The time stamps of the spec's worked scenario: five samples 1 s apart,
expressed in nanoseconds as `datetime64[ns]` values are. -/
def scnTime : List ℚ := [0, 1000000000, 2000000000, 3000000000, 4000000000]

/-- The depth trace of the spec's worked scenario. -/
def scnDepth : List ℚ := [5, 20, 25, 20, 5]

/-! ## Support lemmas for the dive-number invariants -/

lemma mem_zipWith {α β γ : Type} {f : α → β → γ} :
    ∀ {xs : List α} {ys : List β} {v : γ}, v ∈ List.zipWith f xs ys →
      ∃ a ∈ xs, ∃ b ∈ ys, v = f a b := by
  intro xs
  induction xs with
  | nil => intro ys v h; simp at h
  | cons x xs ih =>
    intro ys v h
    cases ys with
    | nil => simp at h
    | cons y ys =>
      rw [List.zipWith_cons_cons] at h
      rcases List.mem_cons.1 h with h | h
      · exact ⟨x, by simp, y, by simp, h⟩
      · obtain ⟨a, ha, b, hb, rfl⟩ := ih h
        exact ⟨a, by simp [ha], b, by simp [hb], rfl⟩

lemma chain_zipWith {f : ℤ → ℤ → ℚ}
    (hf : ∀ a a' b b', a ≤ a' → b ≤ b' → f a b ≤ f a' b') :
    ∀ (xs ys : List ℤ), List.Chain' (· ≤ ·) xs → List.Chain' (· ≤ ·) ys →
      List.Chain' (· ≤ ·) (List.zipWith f xs ys) := by
  intro xs
  induction xs with
  | nil => intro ys _ _; simp
  | cons x xs ih =>
    intro ys hx hy
    cases ys with
    | nil => simp
    | cons y ys =>
      rw [List.zipWith_cons_cons]
      refine List.chain'_cons'.2 ⟨?_, ih ys (List.chain'_cons'.1 hx).2 (List.chain'_cons'.1 hy).2⟩
      intro z hz
      cases xs with
      | nil => simp at hz
      | cons x2 xs' =>
        cases ys with
        | nil => simp at hz
        | cons y2 ys' =>
          rw [List.zipWith_cons_cons, List.head?_cons, Option.mem_some_iff] at hz
          subst hz
          exact hf x x2 y y2 (List.chain'_cons.1 hx).1 (List.chain'_cons.1 hy).1

lemma cumsumGo_chain :
    ∀ (xs : List ℤ) (acc : ℤ), (∀ x ∈ xs, 0 ≤ x) →
      List.Chain' (· ≤ ·) (cumsumGo acc xs) ∧ ∀ y ∈ cumsumGo acc xs, acc ≤ y := by
  intro xs
  induction xs with
  | nil => intro acc _; constructor <;> simp [cumsumGo]
  | cons x xs ih =>
    intro acc h
    have hx : 0 ≤ x := h x (by simp)
    obtain ⟨ihc, ihm⟩ := ih (acc + x) (fun z hz => h z (by simp [hz]))
    constructor
    · rw [cumsumGo]
      refine List.chain'_cons'.2 ⟨?_, ihc⟩
      intro z hz
      exact ihm z (List.mem_of_mem_head? hz)
    · intro y hy
      rw [cumsumGo] at hy
      rcases List.mem_cons.1 hy with rfl | hy
      · linarith
      · have := ihm y hy; linarith

lemma runStart_nonneg (xs : List ℤ) : ∀ y ∈ runStart xs, 0 ≤ y := by
  intro y hy
  unfold runStart at hy
  cases xs with
  | nil => simp at hy
  | cons x rest =>
    rcases List.mem_cons.1 hy with rfl | hy
    · exact le_refl 0
    · obtain ⟨a, _, b, _, rfl⟩ := mem_zipWith hy
      split <;> norm_num

lemma length_runStart (xs : List ℤ) : (runStart xs).length = xs.length := by
  cases xs with
  | nil => rfl
  | cons x rest => simp [runStart]

lemma length_cumsumGo : ∀ (xs : List ℤ) (acc : ℤ), (cumsumGo acc xs).length = xs.length := by
  intro xs
  induction xs with
  | nil => intro acc; rfl
  | cons x xs ih => intro acc; simp [cumsumGo, ih]

/-! ## Claim theorems: dive phase and dive number -/

/-- C5: for every phase label sequence, the dive index returned by
`dive_phase_to_number` is non-decreasing and every value is `n.0` or `n.5`
for some non-negative integer `n`. -/
theorem dive_number_monotone_halfint (phase : List ℤ) :
    (dive_phase_to_number phase).Sorted (· ≤ ·) ∧
    ∀ v ∈ dive_phase_to_number phase, ∃ n : ℕ, v = (n : ℚ) ∨ v = (n : ℚ) + 1/2 := by
  have h4 := runStart_nonneg (indEq 4 phase)
  have h1 := runStart_nonneg (indEq 1 phase)
  obtain ⟨c4, m4⟩ := cumsumGo_chain (runStart (indEq 4 phase)) 0 h4
  obtain ⟨c1, m1⟩ := cumsumGo_chain (runStart (indEq 1 phase)) 0 h1
  constructor
  · have hchain : List.Chain' (· ≤ ·) (dive_phase_to_number phase) := by
      rw [dive_phase_to_number, cumsum, cumsum]
      refine chain_zipWith ?_ _ _ c4 c1
      intro a a' b b' ha hb
      have ha' : (a : ℚ) ≤ (a' : ℚ) := by exact_mod_cast ha
      have hb' : (b : ℚ) ≤ (b' : ℚ) := by exact_mod_cast hb
      push_cast
      linarith
    exact List.chain'_iff_pairwise.1 hchain
  · intro v hv
    rw [dive_phase_to_number, cumsum, cumsum] at hv
    obtain ⟨a, ha, b, hb, rfl⟩ := mem_zipWith hv
    have ha0 : 0 ≤ a := m4 a ha
    have hb0 : 0 ≤ b := m1 b hb
    rcases Int.even_or_odd (a + b) with ⟨k, hk⟩ | ⟨k, hk⟩
    · have hk0 : 0 ≤ k := by linarith
      have hcast : ((k.toNat : ℕ) : ℚ) = (k : ℚ) := by exact_mod_cast Int.toNat_of_nonneg hk0
      refine ⟨k.toNat, Or.inl ?_⟩
      rw [hk, hcast]
      push_cast
      ring
    · have hk0 : 0 ≤ k := by linarith
      have hcast : ((k.toNat : ℕ) : ℚ) = (k : ℚ) := by exact_mod_cast Int.toNat_of_nonneg hk0
      refine ⟨k.toNat, Or.inr ?_⟩
      rw [hk, hcast]
      push_cast
      ring

/-- C10: for every non-empty phase sequence, `dive_phase_to_number` returns
a sequence of the same length whose first element is `0`, whatever the
first phase label is (`Series.diff` yields NaN at index 0, and `NaN == 1`
is false, so neither counter starts at the first sample). -/
theorem dive_number_length_and_first (phase : List ℤ) (h : phase ≠ []) :
    (dive_phase_to_number phase).length = phase.length ∧
    (dive_phase_to_number phase).head? = some 0 := by
  obtain ⟨p, rest, rfl⟩ := List.exists_cons_of_ne_nil h
  constructor
  · simp [dive_phase_to_number, cumsum, length_cumsumGo, length_runStart, indEq]
  · simp only [dive_phase_to_number, indEq, List.map_cons, runStart, cumsum, cumsumGo,
      List.zipWith_cons_cons, List.head?_cons]
    norm_num

/-- Witness for C10 at the concrete one-element phase sequence `[4]`. -/
theorem dive_number_length_and_first_witness :
    (dive_phase_to_number [4]).length = ([4] : List ℤ).length ∧
    (dive_phase_to_number [4]).head? = some 0 :=
  dive_number_length_and_first [4] (by decide)

/-- C1 (counterexample): on the spec's worked scenario the phase labels are
`[0, 1, 1, 4, 0]`, not `[6 or 0, 1, 3, 4, 4]` — the +500 cm/s sample is far
above the ±0.5 cm/s inflexion band (rule 1 fires, label 1), and the last
sample is at depth 5 ≤ 15 so the shallow override gives label 0 — and the
dive index is `[0, 0.5, 0.5, 1, 1]`: it never reaches 1.5. -/
theorem scenario_labels_counterexample :
    calc_dive_phase scnTime scnDepth 15 (fun _ => FP.nan) = [0, 1, 1, 4, 0] ∧
    calc_dive_phase scnTime scnDepth 15 (fun _ => FP.nan) ≠ [0, 1, 3, 4, 4] ∧
    calc_dive_phase scnTime scnDepth 15 (fun _ => FP.nan) ≠ [6, 1, 3, 4, 4] ∧
    calc_dive_number scnTime scnDepth 15 (fun _ => FP.nan) = [0, 1/2, 1/2, 1, 1] ∧
    (1 : ℚ) + 1/2 ∉ calc_dive_number scnTime scnDepth 15 (fun _ => FP.nan) := by
  have hp : calc_dive_phase scnTime scnDepth 15 (fun _ => FP.nan) = [0, 1, 1, 4, 0] := by
    norm_num [calc_dive_phase, phaseValAt, velAt, t_s, p_cm, npMin, scnTime, scnDepth,
      List.range_succ, fpDiv, fpLt, fpLe, fpToInt, fin_ne_nan, truncRat]
  have hd : calc_dive_number scnTime scnDepth 15 (fun _ => FP.nan) = [0, 1/2, 1/2, 1, 1] := by
    rw [calc_dive_number, hp]
    norm_num [dive_phase_to_number, indEq, runStart, cumsum, cumsumGo]
  refine ⟨hp, ?_, ?_, hd, ?_⟩
  · rw [hp]; decide
  · rw [hp]; decide
  · rw [hd]; norm_num

/-- C1 (amended): on the spec's worked scenario the velocity signal is
`[NaN, +1500, +500, -500, -1500]` cm/s, the phase labels are
`[0, 1, 1, 4, 0]` whatever the uninitialised buffer held (every sample is
assigned by rules 1-4 here), and the dive index is `[0, 0.5, 0.5, 1, 1]`,
transitioning from 0.5 to 1.0 at the first ascent sample. -/
theorem scenario_labels_amended (buf : ℕ → FP) :
    calc_glider_vert_velocity scnTime scnDepth
      = [FP.nan, FP.fin 1500, FP.fin 500, FP.fin (-500), FP.fin (-1500)] ∧
    calc_dive_phase scnTime scnDepth 15 buf = [0, 1, 1, 4, 0] ∧
    calc_dive_number scnTime scnDepth 15 buf = [0, 1/2, 1/2, 1, 1] := by
  have hv : calc_glider_vert_velocity scnTime scnDepth
      = [FP.nan, FP.fin 1500, FP.fin 500, FP.fin (-500), FP.fin (-1500)] := by
    norm_num [calc_glider_vert_velocity, velAt, t_s, p_cm, npMin, scnTime, scnDepth,
      List.range_succ, fpDiv]
  have hp : calc_dive_phase scnTime scnDepth 15 buf = [0, 1, 1, 4, 0] := by
    norm_num [calc_dive_phase, phaseValAt, velAt, t_s, p_cm, npMin, scnTime, scnDepth,
      List.range_succ, fpDiv, fpLt, fpLe, fpToInt, fin_ne_nan, truncRat]
  refine ⟨hv, hp, ?_⟩
  rw [calc_dive_number, hp]
  norm_num [dive_phase_to_number, indEq, runStart, cumsum, cumsumGo]

/-- C2: `calc_dive_phase` reads the uninitialised `np.ndarray(time.size)`
buffer.  For a single sample at depth 20 > 15 the velocity is NaN and no
mask rule fires, so the output is whatever garbage the allocator left:
buffer residue 7.0 gives `[7]`, residue NaN gives `[6]` — two calls on
identical `(time, depth)` inputs need not return identical outputs. -/
theorem phase_depends_on_uninitialised_buffer :
    calc_dive_phase [0] [20] 15 (fun _ => FP.fin 7) = [7] ∧
    calc_dive_phase [0] [20] 15 (fun _ => FP.nan) = [6] ∧
    calc_dive_phase [0] [20] 15 (fun _ => FP.fin 7)
      ≠ calc_dive_phase [0] [20] 15 (fun _ => FP.nan) := by
  have h1 : calc_dive_phase [0] [20] 15 (fun _ => FP.fin 7) = [7] := by
    norm_num [calc_dive_phase, phaseValAt, velAt, t_s, p_cm, npMin,
      List.range_succ, fpDiv, fpLt, fpLe, fpToInt, fin_ne_nan, truncRat]
  have h2 : calc_dive_phase [0] [20] 15 (fun _ => FP.nan) = [6] := by
    norm_num [calc_dive_phase, phaseValAt, velAt, t_s, p_cm, npMin,
      List.range_succ, fpDiv, fpLt, fpLe, fpToInt, fin_ne_nan, truncRat]
  exact ⟨h1, h2, by rw [h1, h2]; decide⟩

/-- C3: a sample left unassigned by rules 1-4 (single deep sample with NaN
velocity) is *not* labelled 6: the uninitialised buffer value leaks through
(`np.ndarray` does not zero or NaN-fill its memory), so the output can
contain labels outside {0, 1, 3, 4, 6} — here 7. -/
theorem phase_label_escapes_ego_set :
    calc_dive_phase [0] [25] 15 (fun _ => FP.fin 7) = [7] ∧
    ¬ ∀ p ∈ calc_dive_phase [0] [25] 15 (fun _ => FP.fin 7), p ∈ ([0, 1, 3, 4, 6] : List ℤ) := by
  have h1 : calc_dive_phase [0] [25] 15 (fun _ => FP.fin 7) = [7] := by
    norm_num [calc_dive_phase, phaseValAt, velAt, t_s, p_cm, npMin,
      List.range_succ, fpDiv, fpLt, fpLe, fpToInt, fin_ne_nan, truncRat]
  refine ⟨h1, ?_⟩
  rw [h1]
  decide

/-! ## mask_above_depth / mask_below_depth (utils.py lines 75-130)

`_mask_depth` re-indexes the dataset by the `dives` column and applies
`mask_profile_depth` to each dive group (pandas `groupby` iterates groups in
ascending key order and `apply` concatenates the per-group results).
`mask_profile_depth` compares the group's `depth` column against the
threshold: a float threshold is used directly, a per-dive Series is looked
up at `df.index[0]`, i.e. at the group's dive number.  The resulting
boolean mask is the *keep*-mask handed to `.where`: rows where it is false
are masked out. -/

/-- IEEE `>` on float64 (any comparison with NaN is false). -/
def fpGt (a b : FP) : Bool := fpLt b a

/-- One row of the glider dataset after `set_index("dives")`: the dive
number is the index and `depth` is a column. -/
structure GliderRow where
  dives : ℚ
  depth : FP
  deriving DecidableEq

/-- The `depths` argument of the masking functions: a plain int/float, or a
pandas Series mapping each dive number to a (possibly NaN) depth. -/
inductive MaskDepths where
  | scalar : ℚ → MaskDepths
  | perDive : (ℚ → FP) → MaskDepths

/-- The threshold used for one profile: `mask_depth` itself when it is an
int/float, else `mask_depth.loc[df.index[0]]`. -/
def maskThreshold (depths : MaskDepths) (idx0 : ℚ) : FP :=
  match depths with
  | .scalar q => .fin q
  | .perDive f => f idx0

/-- Model of `mask_profile_depth(df, mask_depth, above)` for one profile whose index
(dive) value is `idx0` and whose depth column is `profDepth`:
`df.depth > mask_depth` when `above`, else `df.depth < mask_depth`. -/
def mask_profile_depth (profDepth : List FP) (idx0 : ℚ) (depths : MaskDepths)
    (above : Bool) : List Bool :=
  profDepth.map (fun d =>
    if above then fpGt d (maskThreshold depths idx0) else fpLt d (maskThreshold depths idx0))

/-- Insert into a sorted list (ascending). -/
def insertAsc {α : Type} [LinearOrder α] (x : α) : List α → List α
  | [] => [x]
  | y :: ys => if x ≤ y then x :: y :: ys else y :: insertAsc x ys

/-- Ascending insertion sort, modelling the sorted iteration order of
pandas `groupby`. -/
def sortAsc {α : Type} [LinearOrder α] (l : List α) : List α :=
  l.foldr insertAsc []

/-- The distinct dive numbers in ascending order: the group keys of
`groupby("dives")`. -/
def diveKeys (rows : List GliderRow) : List ℚ :=
  sortAsc (rows.map (fun r => r.dives)).dedup

/-- The depth column of the group with dive number `k`, in original row
order. -/
def diveGroup (rows : List GliderRow) (k : ℚ) : List FP :=
  (rows.filter (fun r => decide (r.dives = k))).map (fun r => r.depth)

/-- Model of `_mask_depth(ds, depths, above)`: the concatenation of the per-dive
masks, one group per distinct dive number in ascending order. -/
def maskDepthAll (rows : List GliderRow) (depths : MaskDepths) (above : Bool) : List Bool :=
  (diveKeys rows).flatMap (fun k => mask_profile_depth (diveGroup rows k) k depths above)

/-- Model of `mask_above_depth(ds, depths)`. -/
def mask_above_depth (rows : List GliderRow) (depths : MaskDepths) : List Bool :=
  maskDepthAll rows depths true

/-- Model of `mask_below_depth(ds, depths)`. -/
def mask_below_depth (rows : List GliderRow) (depths : MaskDepths) : List Bool :=
  maskDepthAll rows depths false

lemma fpLt_nan_left (a : FP) : fpLt FP.nan a = false := by cases a <;> rfl

lemma fpLt_nan_right (a : FP) : fpLt a FP.nan = false := by cases a <;> rfl

/-- C6: when the per-dive depth threshold of dive `k` is NaN, every
comparison `depth > NaN` / `depth < NaN` is false, so the segment of the
mask belonging to dive `k` is identically false in both
`mask_above_depth` and `mask_below_depth`: the entire dive is masked out
(the mask is the keep-mask consumed by `.where`). -/
theorem nan_threshold_masks_entire_dive (rows : List GliderRow) (f : ℚ → FP) (k : ℚ)
    (h : f k = FP.nan) :
    (mask_above_depth rows (.perDive f)
      = (diveKeys rows).flatMap
          (fun j => mask_profile_depth (diveGroup rows j) j (.perDive f) true)) ∧
    (∀ b ∈ mask_profile_depth (diveGroup rows k) k (.perDive f) true, b = false) ∧
    (mask_below_depth rows (.perDive f)
      = (diveKeys rows).flatMap
          (fun j => mask_profile_depth (diveGroup rows j) j (.perDive f) false)) ∧
    (∀ b ∈ mask_profile_depth (diveGroup rows k) k (.perDive f) false, b = false) := by
  refine ⟨rfl, ?_, rfl, ?_⟩ <;>
    · intro b hb
      obtain ⟨d, _, rfl⟩ := List.mem_map.1 hb
      simp [maskThreshold, h, fpGt, fpLt_nan_left, fpLt_nan_right]

/-- Witness for C6: two rows in dive 1 with depths 10 and 50, NaN
threshold for every dive. -/
theorem nan_threshold_masks_entire_dive_witness :
    (mask_above_depth [⟨1, FP.fin 10⟩, ⟨1, FP.fin 50⟩] (.perDive (fun _ => FP.nan))
      = (diveKeys [⟨1, FP.fin 10⟩, ⟨1, FP.fin 50⟩]).flatMap
          (fun j => mask_profile_depth (diveGroup [⟨1, FP.fin 10⟩, ⟨1, FP.fin 50⟩] j)
            j (.perDive (fun _ => FP.nan)) true)) ∧
    (∀ b ∈ mask_profile_depth (diveGroup [⟨1, FP.fin 10⟩, ⟨1, FP.fin 50⟩] 1) 1
        (.perDive (fun _ => FP.nan)) true, b = false) ∧
    (mask_below_depth [⟨1, FP.fin 10⟩, ⟨1, FP.fin 50⟩] (.perDive (fun _ => FP.nan))
      = (diveKeys [⟨1, FP.fin 10⟩, ⟨1, FP.fin 50⟩]).flatMap
          (fun j => mask_profile_depth (diveGroup [⟨1, FP.fin 10⟩, ⟨1, FP.fin 50⟩] j)
            j (.perDive (fun _ => FP.nan)) false)) ∧
    (∀ b ∈ mask_profile_depth (diveGroup [⟨1, FP.fin 10⟩, ⟨1, FP.fin 50⟩] 1) 1
        (.perDive (fun _ => FP.nan)) false, b = false) :=
  nan_threshold_masks_entire_dive [⟨1, FP.fin 10⟩, ⟨1, FP.fin 50⟩] (fun _ => FP.nan) 1 rfl

/-! ## merge_dimensions (utils.py lines 133-199)

The source first raises `GliderToolsError` if either input is an
`xr.Dataset`, then raises `UserWarning` if the two index types differ; only
then does it join.  The join is `df1.join(df2, sort=True, how="outer")`,
whose index is the *sorted union* of both indices — and the next line,
`df.index = df1.index.astype(np.int64)`, assigns an index of length
`len(df1)` to that union-length frame, which pandas rejects with a
length-mismatch `ValueError` whenever `df2` holds any timestamp not in
`df1`.  Timestamps are `datetime64[ns]`, i.e. int64 nanoseconds, modelled
by `ℤ`. -/

/-- The runtime type of a pandas index, as compared by
`type(df1.index) == type(df2.index)`. -/
inductive IdxDtype where
  | dt64ns : IdxDtype
  | float64 : IdxDtype
  | int64 : IdxDtype
  deriving DecidableEq

/-- A pandas DataFrame: a typed index and named columns of float values
aligned with it. -/
structure DataFrame where
  idxType : IdxDtype
  index : List ℤ
  cols : List (String × List FP)
  deriving DecidableEq

/-- An argument to `merge_dimensions`: a tabular DataFrame, or an
`xr.Dataset` (not row/column tabular). -/
inductive PdObj where
  | dataset : PdObj
  | frame : DataFrame → PdObj
  deriving DecidableEq

/-- The exceptions `merge_dimensions` can raise. -/
inductive MergeErr where
  | gliderToolsError : MergeErr
  | userWarning : MergeErr
  | valueErrorLengthMismatch : MergeErr
  deriving DecidableEq

/-- The sorted union of two indices: the index of an outer join. -/
def indexUnion (a b : List ℤ) : List ℤ := sortAsc (a ++ b).dedup

/-- The value a column holds at label `t` after re-indexing: the value at
the label's position in the column's own index, NaN if absent. -/
def lookupVal (idx : List ℤ) (vals : List FP) (t : ℤ) : FP :=
  match idx.findIdx? (fun s => decide (s = t)) with
  | some i => vals.getD i FP.nan
  | none => FP.nan

/-- NaN test, `np.isnan`. -/
def fpIsNaN (a : FP) : Bool := decide (a = FP.nan)

/-- The values filling an interior NaN run of length `gap` between valid
values `a` and `b` under `interpolate(method="linear", limit=L)`: linear
values for the first `L` positions of the run, NaN beyond the limit. -/
def interpGapVals (a b : FP) (gap L : ℕ) : List FP :=
  (List.range gap).map (fun k =>
    if k < L then
      fpAdd a (fpDiv (fpMul (fpSub b a) (.fin ((k : ℚ) + 1))) (.fin ((gap : ℚ) + 1)))
    else .nan)

/-- The values filling a trailing NaN run under forward linear
interpolation: the last valid value for the first `L` positions. -/
def interpTrailVals (a : FP) (gap L : ℕ) : List FP :=
  (List.range gap).map (fun k => if k < L then a else .nan)

lemma length_dropWhile_le {α : Type} (p : α → Bool) :
    ∀ l : List α, (l.dropWhile p).length ≤ l.length := by
  intro l
  induction l with
  | nil => simp
  | cons x xs ih =>
    rw [List.dropWhile_cons]
    split
    · simp
      omega
    · simp

/-- Forward pass of `interpolate(limit=L)` after the first valid value
`a`. -/
def interpGo (L : ℕ) (a : FP) (xs : List FP) : List FP :=
  let rest := xs.dropWhile fpIsNaN
  match hrest : rest with
  | [] => interpTrailVals a (xs.takeWhile fpIsNaN).length L
  | b :: rest' =>
      interpGapVals a b (xs.takeWhile fpIsNaN).length L ++ b :: interpGo L b rest'
termination_by xs.length
decreasing_by
  have hle := length_dropWhile_le fpIsNaN xs
  have hx : List.dropWhile fpIsNaN xs = b :: rest' := hrest
  rw [hx] at hle
  simp at hle
  omega

/-- Model of `Series.interpolate(method="linear", limit=L)`: leading NaNs stay,
interior gaps are linearly filled up to `L` consecutive steps, trailing
NaNs are forward-filled up to `L` steps. -/
def interpolateLimit (L : ℕ) (xs : List FP) : List FP :=
  match xs.dropWhile fpIsNaN with
  | [] => xs
  | a :: rest' => xs.takeWhile fpIsNaN ++ a :: interpGo L a rest'

/-- Forward fill with limit: each NaN takes the most recent valid value,
at most `L` consecutive times. -/
def ffillGo (L : ℕ) (lastv : Option FP) (cnt : ℕ) : List FP → List FP
  | [] => []
  | x :: xs =>
      if fpIsNaN x then
        (match lastv with
          | some v => if cnt < L then v else FP.nan
          | none => FP.nan) :: ffillGo L lastv (cnt + 1) xs
      else x :: ffillGo L (some x) 0 xs

/-- Model of `Series.bfill(limit=L)`: a forward fill on the reversed series. -/
def bfillLimit (L : ℕ) (xs : List FP) : List FP :=
  (ffillGo L none 0 xs.reverse).reverse

/-- Model of `df.loc[labels]` on a frame indexed by `idx`: for each requested label,
all rows carrying that label, in order. -/
def locSelect (labels idx : List ℤ) (vals : List FP) : List FP :=
  labels.flatMap (fun t => ((idx.zip vals).filter (fun p => decide (p.1 = t))).map (fun p => p.2))

/-- Model of `merge_dimensions(df1, df2, interp_lim)`.  Mirrors the source order:
the `xr.Dataset` check, the index-type check, the outer join, the
`df.index = df1.index` assignment (a pandas `ValueError` when the union is
longer than `df1`), interpolation and back-fill with `interp_lim`, and the
final `.loc[df1.index]`. -/
def merge_dimensions (o1 o2 : PdObj) (interp_lim : ℕ) : Except MergeErr DataFrame :=
  match o1, o2 with
  | .dataset, _ => .error .gliderToolsError
  | _, .dataset => .error .gliderToolsError
  | .frame df1, .frame df2 =>
    if df1.idxType = df2.idxType then
      let u := indexUnion df1.index df2.index
      if u.length = df1.index.length then
        let joined : List (String × List FP) :=
          df1.cols.map (fun c => (c.1, u.map (lookupVal df1.index c.2)))
            ++ df2.cols.map (fun c =>
              (c.1 ++ (if df1.cols.any (fun c1 => decide (c1.1 = c.1)) then "_drop" else ""),
                u.map (lookupVal df2.index c.2)))
        let filled := joined.map (fun c =>
          (c.1, bfillLimit interp_lim (interpolateLimit interp_lim c.2)))
        .ok { idxType := df1.idxType,
              index := df1.index.flatMap (fun t =>
                (df1.index.filter (fun s => decide (s = t))).map (fun _ => t)),
              cols := filled.map (fun c => (c.1, locSelect df1.index df1.index c.2)) }
      else .error .valueErrorLengthMismatch
    else .error .userWarning

/-- A one-row reference frame indexed by timestamp 0. -/
def dfA : DataFrame := { idxType := .dt64ns, index := [0], cols := [("a", [.fin 1])] }

/-- A one-row donor frame indexed by timestamp 1, not present in `dfA`. -/
def dfB : DataFrame := { idxType := .dt64ns, index := [1], cols := [("b", [.fin 2])] }

/-- C4: `merge_dimensions` does not return a frame on `dfA`'s index when
the donor frame holds a timestamp outside it — the assignment
`df.index = df1.index.astype(np.int64)` after the outer join raises a
pandas length-mismatch `ValueError` (union has 2 rows, new index 1), so no
result at all is produced in exactly the advertised use case of merging
streams sampled at different instants. -/
theorem merge_dimensions_crashes_on_new_timestamps :
    merge_dimensions (.frame dfA) (.frame dfB) 3 = .error .valueErrorLengthMismatch ∧
    ∀ out : DataFrame, merge_dimensions (.frame dfA) (.frame dfB) 3 ≠ .ok out := by
  constructor
  · rfl
  · intro out h
    rw [show merge_dimensions (.frame dfA) (.frame dfB) 3
        = .error .valueErrorLengthMismatch from rfl] at h
    exact Except.noConfusion h

/-- C7: if either input is an `xr.Dataset`, or both are frames whose index
types differ, `merge_dimensions` raises — the checks precede the join in
the source, and an exception means no partial result is returned. -/
theorem merge_dimensions_type_mismatch_errors (o1 o2 : PdObj) (lim : ℕ)
    (h : o1 = .dataset ∨ o2 = .dataset ∨
      ∃ d1 d2, o1 = .frame d1 ∧ o2 = .frame d2 ∧ d1.idxType ≠ d2.idxType) :
    ∃ e, merge_dimensions o1 o2 lim = .error e := by
  rcases h with rfl | rfl | ⟨d1, d2, rfl, rfl, hne⟩
  · cases o2 with
    | dataset => exact ⟨.gliderToolsError, rfl⟩
    | frame d => exact ⟨.gliderToolsError, rfl⟩
  · cases o1 with
    | dataset => exact ⟨.gliderToolsError, rfl⟩
    | frame d => exact ⟨.gliderToolsError, rfl⟩
  · exact ⟨.userWarning, by simp [merge_dimensions, hne]⟩

/-- Witness for C7: an `xr.Dataset` first argument errors out. -/
theorem merge_dimensions_type_mismatch_errors_witness :
    ∃ e, merge_dimensions PdObj.dataset (PdObj.frame dfA) 3 = .error e :=
  merge_dimensions_type_mismatch_errors PdObj.dataset (PdObj.frame dfA) 3 (Or.inl rfl)

/-! ## distance (utils.py lines 313-371)

Great-circle distances over exact reals.  There is no floating point
subtlety at stake in the claims below (lengths, the forced leading zero and
the zero distance of a point to itself), so coordinates are modelled by
`ℝ` with the genuine `sin`/`cos`/`arctan`/`sqrt`. -/

/-- The exceptions `distance` can raise. -/
inductive DistErr where
  | valueErrorSize : DistErr
  | indexError : DistErr
  deriving DecidableEq

/-- Model of `np.radians`. -/
noncomputable def radians (x : ℝ) : ℝ := x * (Real.pi / 180)

/-- Model of `np.arctan2(y, x)`. -/
noncomputable def arctan2 (y x : ℝ) : ℝ :=
  if 0 < x then Real.arctan (y / x)
  else if x < 0 then
    (if 0 ≤ y then Real.arctan (y / x) + Real.pi else Real.arctan (y / x) - Real.pi)
  else (if 0 < y then Real.pi / 2 else if y < 0 then -(Real.pi / 2) else 0)

/-- Model of `2 * np.arctan2(np.sqrt(a), np.sqrt(1 - a))`: the central angle of the
haversine formula. -/
noncomputable def havAngle (a : ℝ) : ℝ :=
  2 * arctan2 (Real.sqrt a) (Real.sqrt (1 - a))

/-- Model of `earth_radius = 6371e3`. -/
noncomputable def earth_radius : ℝ := 6371000

/-- Numpy integer indexing: negative indices count from the end, anything
out of `[-n, n)` raises `IndexError`. -/
def normIdx (r : ℤ) (n : ℕ) : Option ℕ :=
  if 0 ≤ r then (if r < (n : ℤ) then some r.toNat else none)
  else (if 0 ≤ r + (n : ℤ) then some (r + n).toNat else none)

/-- Model of `distance(lon, lat, ref_idx)`: pairwise haversine distances between
adjacent points when `ref_idx` is `None`, distances from the point at
`ref_idx` to every point otherwise; either way `np.r_[0, distance]`
prepends a forced 0. -/
noncomputable def distance (lon lat : List ℝ) (ref_idx : Option ℤ) :
    Except DistErr (List ℝ) :=
  if lon.length ≠ lat.length then .error .valueErrorSize
  else
    let lonR := lon.map radians
    let latR := lat.map radians
    match ref_idx with
    | none =>
        let dlon := List.zipWith (fun p c => c - p) lonR lonR.tail
        let dlat := List.zipWith (fun p c => c - p) latR latR.tail
        let a := List.zipWith
          (fun dla p => Real.sin (dla / 2) ^ 2
            + Real.sin (p.1 / 2) ^ 2 * Real.cos p.2.1 * Real.cos p.2.2)
          dlat (dlon.zip (latR.dropLast.zip latR.tail))
        .ok (0 :: a.map (fun v => earth_radius * havAngle v))
    | some r =>
        match normIdx r lon.length with
        | none => .error .indexError
        | some i =>
            let lonRef := lonR.getD i 0
            let latRef := latR.getD i 0
            let dlon := lonR.map (fun l => lonRef - l)
            let dlat := latR.map (fun l => latRef - l)
            let a := List.zipWith
              (fun dla p => Real.sin (dla / 2) ^ 2
                + Real.sin (p.1 / 2) ^ 2 * Real.cos latRef * Real.cos p.2)
              dlat (dlon.zip latR)
            .ok (0 :: a.map (fun v => earth_radius * havAngle v))

lemma havAngle_zero : havAngle 0 = 0 := by
  rw [havAngle, arctan2]
  norm_num

/-- C8 (counterexample): on a single-point track with reference index 0
(the only point), `distance` returns `[0, 0]`, not `[0]` — reference mode
prepends the forced 0 to the one reference-to-point distance. -/
theorem distance_single_point_ref_counterexample :
    distance [0] [0] (some 0) = .ok [0, 0] ∧
    distance [0] [0] (some 0) ≠ .ok [0] := by
  have h : distance [0] [0] (some 0) = .ok [0, 0] := by
    rw [distance]
    norm_num [normIdx, radians, havAngle_zero]
  exact ⟨h, by rw [h]; simp⟩

/-- C8 (amended): on any single-point track, adjacent mode returns `[0]`,
and reference mode with `ref_idx = 0` returns `[0, 0]`: the forced leading
zero followed by the (zero) distance from the point to itself. -/
theorem distance_single_point (x y : ℝ) :
    distance [x] [y] none = .ok [0] ∧
    distance [x] [y] (some 0) = .ok [0, 0] := by
  constructor
  · rw [distance]
    norm_num
  · rw [distance]
    norm_num [normIdx, radians, havAngle_zero]

/-- C9 (counterexample): `distance` does not return an array for *every*
integer `ref_idx` — an out-of-range reference index (2 on a length-1
track) raises numpy's `IndexError` at `lon[ref_idx]`, so no array at all
comes back. -/
theorem distance_out_of_range_ref_counterexample :
    distance [0] [0] (some 2) = .error .indexError ∧
    ∀ out : List ℝ, distance [0] [0] (some 2) ≠ .ok out := by
  have h : distance [0] [0] (some 2) = .error .indexError := by
    rw [distance]
    norm_num [normIdx]
  refine ⟨h, fun out hc => ?_⟩
  rw [h] at hc
  exact Except.noConfusion hc

/-- C9 (amended): for equal-length 1-D tracks and an *in-range* reference
index (`-n ≤ ref_idx < n`, numpy negative indexing included), the
reference-mode output has length `n + 1` — the forced leading 0 followed
by the `n` distances from the reference point — one element longer than
the input, whereas adjacent mode returns exactly `n` elements. -/
theorem distance_ref_mode_length (lon lat : List ℝ) (r : ℤ)
    (hlen : lon.length = lat.length)
    (hr : (0 ≤ r ∧ r < (lon.length : ℤ)) ∨ (r < 0 ∧ 0 ≤ r + (lon.length : ℤ))) :
    ∃ out, distance lon lat (some r) = .ok out ∧ out.length = lon.length + 1 ∧
      out.head? = some 0 ∧
      ∃ adj, distance lon lat none = .ok adj ∧ adj.length = lon.length := by
  have hn : 1 ≤ lon.length := by
    rcases hr with ⟨h1, h2⟩ | ⟨h1, h2⟩ <;> omega
  have hne : ¬ lon.length ≠ lat.length := fun h => h hlen
  have hi : ∃ i, normIdx r lon.length = some i := by
    unfold normIdx
    rcases hr with ⟨h1, h2⟩ | ⟨h1, h2⟩
    · rw [if_pos h1, if_pos h2]
      exact ⟨_, rfl⟩
    · rw [if_neg (not_le.mpr h1), if_pos h2]
      exact ⟨_, rfl⟩
  obtain ⟨i, hi⟩ := hi
  constructor
  constructor
  · rw [distance, if_neg hne]
    dsimp only
    rw [hi]
  refine ⟨?_, by simp, ?_⟩
  · simp [List.length_map, List.length_zipWith, List.length_zip, hlen]
  · refine ⟨_, by rw [distance, if_neg hne], ?_⟩
    simp [List.length_map, List.length_zipWith, List.length_zip, List.length_dropLast,
      List.length_tail, hlen]
    omega

/-- Witness for C9 (amended) on a one-point track with reference index
0. -/
theorem distance_ref_mode_length_witness :
    ∃ out, distance [(0 : ℝ)] [(0 : ℝ)] (some 0) = .ok out ∧
      out.length = ([(0 : ℝ)] : List ℝ).length + 1 ∧
      out.head? = some 0 ∧
      ∃ adj, distance [(0 : ℝ)] [(0 : ℝ)] none = .ok adj ∧
        adj.length = ([(0 : ℝ)] : List ℝ).length :=
  distance_ref_mode_length [(0 : ℝ)] [(0 : ℝ)] 0 rfl (Or.inl (by norm_num))

end GliderTools
